import Mathlib

/-!
Shallow embedding of the `argon2go` package (files `argon2.go`, `hash.go`).

Bytes are modelled as `Nat`, byte slices as `List Nat`, Go `int` as `Int`.
A Go pointer that may be `nil` is modelled as `Option`.  The external Argon2
C primitive (`argon2_encodedlen`, `argon2_hash`, `argon2_verify`,
`argon2_error_message`) is opaque to the package, so it is modelled as a
structure of arbitrary functions over which the theorems quantify; the
secure random source `crypto/rand.Read` is likewise a quantified parameter.
A Go call that panics (e.g. `make([]byte, n)` with negative `n`, or indexing
`&buf[0]` into an empty slice) is modelled by a dedicated `goPanic` outcome.
-/

/-- Numeric value of the C enum constant `Argon2_d` from the external
`argon2.h` header (the spec treats the primitive as an opaque capability;
the reference header fixes `Argon2_d = 0`). -/
def Argon2ModeD : Int := 0

/-- Numeric value of the C enum constant `Argon2_i` (`Argon2_i = 1` in the
reference `argon2.h`). -/
def Argon2ModeI : Int := 1

/-- Numeric value of the C enum constant `Argon2_id` (`Argon2_id = 2` in the
reference `argon2.h`). -/
def Argon2ModeID : Int := 2

/-- Numeric value of `ARGON2_VERSION_10` (`0x10` in the reference header). -/
def Argon2Version10 : Int := 16

/-- Numeric value of `ARGON2_VERSION_13` (`0x13` in the reference header). -/
def Argon2Version13 : Int := 19

/-- `ARGON2_VERSION_NUMBER`, the default version; equal to
`ARGON2_VERSION_13` in the reference header. -/
def Argon2VersionDefault : Int := 19

/-- Status code `ARGON2_OK` of the external primitive (`0` in the reference
`argon2.h`); the package only relies on it being distinct from the
mismatch code. -/
def ARGON2_OK : Int := 0

/-- Status code `ARGON2_VERIFY_MISMATCH` of the external primitive
(`-35` in the reference `argon2.h`). -/
def ARGON2_VERIFY_MISMATCH : Int := -35

/-- The Go error values produced or propagated by the package.  Each of the
four package-level sentinel errors of `argon2.go` is one constructor; a
fresh error built by `errors.New(msg)` (used for primitive failure
messages) or any error propagated from an external source is `errNew msg`.
Distinct constructors model distinct Go error values. -/
inductive GoError where
  | errEmptyInput : GoError
  | errEmptyHash : GoError
  | errNotConfigured : GoError
  | errInvalidArgon2Mode : GoError
  | errNew : String → GoError
deriving DecidableEq, Repr

/-- `Argon2Config` of `argon2.go`: the seven configuration fields, each a
Go `int`. -/
structure Argon2Config where
  Iterations : Int
  Memory : Int
  Parallelism : Int
  HashLength : Int
  SaltLength : Int
  Mode : Int
  Version : Int
deriving DecidableEq, Repr

/-- `argon2Hasher` of `argon2.go`: holds a possibly-nil pointer to its
configuration. -/
structure argon2Hasher where
  conf : Option Argon2Config
deriving DecidableEq, Repr

/-- `Argon2Option`: a configuration mutation.  The Go closure mutates the
config through a pointer; functionally it maps a config to a config. -/
abbrev Argon2Option := Argon2Config → Argon2Config

/-- `Argon2Iterations`: option setting the `Iterations` field. -/
def Argon2Iterations (iterations : Int) : Argon2Option :=
  fun conf => { conf with Iterations := iterations }

/-- `Argon2Memory`: option setting the `Memory` field. -/
def Argon2Memory (memory : Int) : Argon2Option :=
  fun conf => { conf with Memory := memory }

/-- `Argon2Parallelism`: option setting the `Parallelism` field. -/
def Argon2Parallelism (parallelism : Int) : Argon2Option :=
  fun conf => { conf with Parallelism := parallelism }

/-- `Argon2HashLength`: option setting the `HashLength` field. -/
def Argon2HashLength (hashLength : Int) : Argon2Option :=
  fun conf => { conf with HashLength := hashLength }

/-- `Argon2SaltLength`: option setting the `SaltLength` field. -/
def Argon2SaltLength (saltLength : Int) : Argon2Option :=
  fun conf => { conf with SaltLength := saltLength }

/-- `Argon2Mode`: option setting the `Mode` field. -/
def Argon2Mode (mode : Int) : Argon2Option :=
  fun conf => { conf with Mode := mode }

/-- `Argon2Version`: option setting the `Version` field. -/
def Argon2Version (version : Int) : Argon2Option :=
  fun conf => { conf with Version := version }

/-- The base configuration literal built at the top of `CreateArgon2`
(`Memory` is `1 << 16 = 65536`). -/
def defaultArgon2Config : Argon2Config :=
  { Iterations := 8
    Memory := 65536
    Parallelism := 8
    HashLength := 64
    SaltLength := 64
    Mode := Argon2ModeID
    Version := Argon2Version13 }

/-- The option-application loop of `CreateArgon2`: each option is applied to
the configuration in argument order, starting from the defaults. -/
def applyOpts (options : List Argon2Option) : Argon2Config :=
  options.foldl (fun conf opt => opt conf) defaultArgon2Config

/-- `CreateArgon2` of `argon2.go`: builds the default configuration, applies
the options in order, and returns a hasher bound to the resulting
configuration (a non-nil pointer). -/
def CreateArgon2 (options : List Argon2Option) : argon2Hasher :=
  { conf := some (applyOpts options) }

/-- ASCII bytes of the string literal `"$argon2id"`. -/
def tagArgon2id : List Nat := [36, 97, 114, 103, 111, 110, 50, 105, 100]

/-- ASCII bytes of the string literal `"$argon2i"`. -/
def tagArgon2i : List Nat := [36, 97, 114, 103, 111, 110, 50, 105]

/-- ASCII bytes of the string literal `"$argon2d"`. -/
def tagArgon2d : List Nat := [36, 97, 114, 103, 111, 110, 50, 100]

/-- `getArgon2Mode` of `argon2.go`: returns `(mode, nil)` for a recognized
prefix (checked in the order `$argon2id`, `$argon2i`, `$argon2d`), and
`(-1, ErrInvalidArgon2Mode)` for nil/empty input or an unrecognized prefix.
`strings.HasPrefix` on `string(hash)` is byte-wise prefix matching. -/
def getArgon2Mode (hash : List Nat) : Int × Option GoError :=
  if hash = [] then (-1, some .errInvalidArgon2Mode)
  else if tagArgon2id.isPrefixOf hash then (Argon2ModeID, none)
  else if tagArgon2i.isPrefixOf hash then (Argon2ModeI, none)
  else if tagArgon2d.isPrefixOf hash then (Argon2ModeD, none)
  else (-1, some .errInvalidArgon2Mode)

/-- The external Argon2 primitive capability (the C library behind the cgo
calls).  `encodedlen` models `argon2_encodedlen` (a `size_t`, hence `Nat`);
`hashFn` models `argon2_hash`, returning the status code and the bytes it
wrote into the output buffer; `verifyFn` models `argon2_verify`;
`errorMessage` models `argon2_error_message`. -/
structure Argon2Primitive where
  encodedlen : Int → Int → Int → Int → Int → Int → Nat
  hashFn : Int → Int → Int → List Nat → List Nat → Int → Nat → Int → Int →
    Int × List Nat
  verifyFn : List Nat → List Nat → Int → Int
  errorMessage : Int → String

/-- Outcome of a Go function returning `([]byte, error)`: either a normal
return of a (possibly nil) slice and a (possibly nil) error, or a runtime
panic. -/
inductive EncodeOutcome where
  | ret : Option (List Nat) → Option GoError → EncodeOutcome
  | goPanic : EncodeOutcome
deriving DecidableEq, Repr

/-- `bytes.TrimRight(l, "\x00")`: remove all trailing zero bytes. -/
def trimRightNul (l : List Nat) : List Nat :=
  (l.reverse.dropWhile (fun b => b == 0)).reverse

/-- `(*argon2Hasher).Encode` of `argon2.go`.  `randRead` models
`crypto/rand.Read` filling a buffer of the given length: it yields the
buffer contents, or the source's error.  A negative `SaltLength` makes
`make([]byte, c.SaltLength)` panic; a zero `encodedlen` makes `&hash[0]`
panic before the primitive call. -/
def Encode (prim : Argon2Primitive) (randRead : Nat → Except GoError (List Nat))
    (h : argon2Hasher) (raw : List Nat) : EncodeOutcome :=
  match h.conf with
  | none => .ret none (some .errNotConfigured)
  | some c =>
    if raw = [] then .ret none (some .errEmptyInput)
    else if c.SaltLength = 0 then .ret none (some .errNotConfigured)
    else if c.SaltLength < 0 then .goPanic
    else
      match randRead c.SaltLength.toNat with
      | .error e => .ret none (some e)
      | .ok salt =>
        let encodedlength := prim.encodedlen c.Iterations c.Memory
          c.Parallelism c.SaltLength c.HashLength c.Mode
        if encodedlength = 0 then .goPanic
        else
          let dr := prim.hashFn c.Iterations c.Memory c.Parallelism raw salt
            c.HashLength encodedlength c.Mode c.Version
          if dr.1 ≠ ARGON2_OK then
            .ret none (some (.errNew (prim.errorMessage dr.1)))
          else
            .ret (some (trimRightNul dr.2)) none

/-- `(*argon2Hasher).Verify` of `argon2.go`. -/
def Verify (prim : Argon2Primitive) (h : argon2Hasher)
    (raw hash : List Nat) : Bool × Option GoError :=
  match h.conf with
  | none => (false, some .errNotConfigured)
  | some _ =>
    if raw = [] then (false, some .errEmptyInput)
    else if hash = [] then (false, some .errEmptyHash)
    else
      match getArgon2Mode hash with
      | (_, some e) => (false, some e)
      | (mode, none) =>
        let result := prim.verifyFn hash raw mode
        if result = ARGON2_OK then (true, none)
        else if result = ARGON2_VERIFY_MISMATCH then (false, none)
        else (false, some (.errNew (prim.errorMessage result)))

/-! ## Helper lemmas -/

/-- Dropping leading zero bytes never leaves a zero byte at the head. -/
theorem head?_dropWhileNul (l : List Nat) :
    (l.dropWhile (fun b => b == 0)).head? ≠ some 0 := by
  induction l with
  | nil => simp
  | cons a t ih =>
    rw [List.dropWhile_cons]
    by_cases ha : a = 0
    · simpa [ha] using ih
    · simp [ha]

/-- The output of `trimRightNul` never ends in a zero byte. -/
theorem trimRightNul_getLast? (l : List Nat) :
    (trimRightNul l).getLast? ≠ some 0 := by
  unfold trimRightNul
  rw [List.getLast?_reverse]
  exact head?_dropWhileNul l.reverse

/-- The only error `getArgon2Mode` can produce is `ErrInvalidArgon2Mode`,
carried alongside mode `-1`. -/
theorem getArgon2Mode_err {hash : List Nat} {m : Int} {e : GoError}
    (h : getArgon2Mode hash = (m, some e)) :
    e = .errInvalidArgon2Mode ∧ m = -1 := by
  unfold getArgon2Mode at h
  split at h
  · cases h; exact ⟨rfl, rfl⟩
  · split at h
    · cases h
    · split at h
      · cases h
      · split at h
        · cases h
        · cases h; exact ⟨rfl, rfl⟩

/-! ## Claim theorems -/

/-- Claim C3: `getArgon2Mode` classifies a byte sequence by its textual
prefix — `$argon2id` yields mode ID, otherwise `$argon2i` yields I,
otherwise `$argon2d` yields D, and anything else (including the empty
input) yields `(-1, ErrInvalidArgon2Mode)`; the longer `$argon2id` prefix
wins over `$argon2i`, so an ID hash is never classified as I. -/
theorem c3_getArgon2Mode_spec (h : List Nat) :
    (h = [] → getArgon2Mode h = (-1, some .errInvalidArgon2Mode)) ∧
    (tagArgon2id.isPrefixOf h = true → getArgon2Mode h = (Argon2ModeID, none)) ∧
    (tagArgon2id.isPrefixOf h = false → tagArgon2i.isPrefixOf h = true →
      getArgon2Mode h = (Argon2ModeI, none)) ∧
    (tagArgon2id.isPrefixOf h = false → tagArgon2i.isPrefixOf h = false →
      tagArgon2d.isPrefixOf h = true → getArgon2Mode h = (Argon2ModeD, none)) ∧
    (tagArgon2id.isPrefixOf h = false → tagArgon2i.isPrefixOf h = false →
      tagArgon2d.isPrefixOf h = false →
      getArgon2Mode h = (-1, some .errInvalidArgon2Mode)) := by
  refine ⟨?_, ?_, ?_, ?_, ?_⟩
  · intro he; subst he; decide
  · intro h1
    have hne : h ≠ [] := by intro he; subst he; exact absurd h1 (by decide)
    unfold getArgon2Mode
    rw [if_neg hne, if_pos h1]
  · intro h1 h2
    have hne : h ≠ [] := by intro he; subst he; exact absurd h2 (by decide)
    unfold getArgon2Mode
    rw [if_neg hne, if_neg (by simp [h1]), if_pos h2]
  · intro h1 h2 h3
    have hne : h ≠ [] := by intro he; subst he; exact absurd h3 (by decide)
    unfold getArgon2Mode
    rw [if_neg hne, if_neg (by simp [h1]), if_neg (by simp [h2]), if_pos h3]
  · intro h1 h2 h3
    by_cases hne : h = []
    · subst hne; decide
    · unfold getArgon2Mode
      rw [if_neg hne, if_neg (by simp [h1]), if_neg (by simp [h2]),
        if_neg (by simp [h3])]

/-- Claim C3 witness: the theorem applied at the concrete input
`"$argon2id"` itself. -/
theorem c3_getArgon2Mode_spec_witness :
    tagArgon2id.isPrefixOf tagArgon2id = true ∧
    getArgon2Mode tagArgon2id = (Argon2ModeID, none) :=
  ⟨by decide, (c3_getArgon2Mode_spec tagArgon2id).2.1 (by decide)⟩

/-- Claim C9: each of the seven options sets exactly its target field and
leaves the other six fields of the configuration unchanged. -/
theorem c9_options_frame (c : Argon2Config) (n : Int) :
    ((Argon2Iterations n c).Iterations = n ∧
     (Argon2Iterations n c).Memory = c.Memory ∧
     (Argon2Iterations n c).Parallelism = c.Parallelism ∧
     (Argon2Iterations n c).HashLength = c.HashLength ∧
     (Argon2Iterations n c).SaltLength = c.SaltLength ∧
     (Argon2Iterations n c).Mode = c.Mode ∧
     (Argon2Iterations n c).Version = c.Version) ∧
    ((Argon2Memory n c).Memory = n ∧
     (Argon2Memory n c).Iterations = c.Iterations ∧
     (Argon2Memory n c).Parallelism = c.Parallelism ∧
     (Argon2Memory n c).HashLength = c.HashLength ∧
     (Argon2Memory n c).SaltLength = c.SaltLength ∧
     (Argon2Memory n c).Mode = c.Mode ∧
     (Argon2Memory n c).Version = c.Version) ∧
    ((Argon2Parallelism n c).Parallelism = n ∧
     (Argon2Parallelism n c).Iterations = c.Iterations ∧
     (Argon2Parallelism n c).Memory = c.Memory ∧
     (Argon2Parallelism n c).HashLength = c.HashLength ∧
     (Argon2Parallelism n c).SaltLength = c.SaltLength ∧
     (Argon2Parallelism n c).Mode = c.Mode ∧
     (Argon2Parallelism n c).Version = c.Version) ∧
    ((Argon2HashLength n c).HashLength = n ∧
     (Argon2HashLength n c).Iterations = c.Iterations ∧
     (Argon2HashLength n c).Memory = c.Memory ∧
     (Argon2HashLength n c).Parallelism = c.Parallelism ∧
     (Argon2HashLength n c).SaltLength = c.SaltLength ∧
     (Argon2HashLength n c).Mode = c.Mode ∧
     (Argon2HashLength n c).Version = c.Version) ∧
    ((Argon2SaltLength n c).SaltLength = n ∧
     (Argon2SaltLength n c).Iterations = c.Iterations ∧
     (Argon2SaltLength n c).Memory = c.Memory ∧
     (Argon2SaltLength n c).Parallelism = c.Parallelism ∧
     (Argon2SaltLength n c).HashLength = c.HashLength ∧
     (Argon2SaltLength n c).Mode = c.Mode ∧
     (Argon2SaltLength n c).Version = c.Version) ∧
    ((Argon2Mode n c).Mode = n ∧
     (Argon2Mode n c).Iterations = c.Iterations ∧
     (Argon2Mode n c).Memory = c.Memory ∧
     (Argon2Mode n c).Parallelism = c.Parallelism ∧
     (Argon2Mode n c).HashLength = c.HashLength ∧
     (Argon2Mode n c).SaltLength = c.SaltLength ∧
     (Argon2Mode n c).Version = c.Version) ∧
    ((Argon2Version n c).Version = n ∧
     (Argon2Version n c).Iterations = c.Iterations ∧
     (Argon2Version n c).Memory = c.Memory ∧
     (Argon2Version n c).Parallelism = c.Parallelism ∧
     (Argon2Version n c).HashLength = c.HashLength ∧
     (Argon2Version n c).SaltLength = c.SaltLength ∧
     (Argon2Version n c).Mode = c.Mode) :=
  ⟨⟨rfl, rfl, rfl, rfl, rfl, rfl, rfl⟩, ⟨rfl, rfl, rfl, rfl, rfl, rfl, rfl⟩,
   ⟨rfl, rfl, rfl, rfl, rfl, rfl, rfl⟩, ⟨rfl, rfl, rfl, rfl, rfl, rfl, rfl⟩,
   ⟨rfl, rfl, rfl, rfl, rfl, rfl, rfl⟩, ⟨rfl, rfl, rfl, rfl, rfl, rfl, rfl⟩,
   ⟨rfl, rfl, rfl, rfl, rfl, rfl, rfl⟩⟩

/-- Claim C5: `CreateArgon2` starts from the documented defaults, applies
the options in argument order (appending one more option transforms the
previously accumulated configuration), and when two options target the
same field the later one's value is the one bound. -/
theorem c5_create_defaults_order :
    (CreateArgon2 []).conf =
      some { Iterations := 8, Memory := 65536, Parallelism := 8,
             HashLength := 64, SaltLength := 64, Mode := Argon2ModeID,
             Version := Argon2Version13 } ∧
    (∀ (opts : List Argon2Option) (o : Argon2Option),
      applyOpts (opts ++ [o]) = o (applyOpts opts)) ∧
    (∀ (opts : List Argon2Option) (n m : Int),
      (applyOpts (opts ++ [Argon2Iterations n, Argon2Iterations m])).Iterations = m) ∧
    (∀ (opts : List Argon2Option) (n m : Int),
      (applyOpts (opts ++ [Argon2Memory n, Argon2Memory m])).Memory = m) ∧
    (∀ (opts : List Argon2Option) (n m : Int),
      (applyOpts (opts ++ [Argon2Parallelism n, Argon2Parallelism m])).Parallelism = m) ∧
    (∀ (opts : List Argon2Option) (n m : Int),
      (applyOpts (opts ++ [Argon2HashLength n, Argon2HashLength m])).HashLength = m) ∧
    (∀ (opts : List Argon2Option) (n m : Int),
      (applyOpts (opts ++ [Argon2SaltLength n, Argon2SaltLength m])).SaltLength = m) ∧
    (∀ (opts : List Argon2Option) (n m : Int),
      (applyOpts (opts ++ [Argon2Mode n, Argon2Mode m])).Mode = m) ∧
    (∀ (opts : List Argon2Option) (n m : Int),
      (applyOpts (opts ++ [Argon2Version n, Argon2Version m])).Version = m) := by
  refine ⟨rfl, ?_, ?_, ?_, ?_, ?_, ?_, ?_, ?_⟩
  · intro opts o; simp [applyOpts, List.foldl_append]
  · intro opts n m; simp [applyOpts, List.foldl_append, Argon2Iterations]
  · intro opts n m; simp [applyOpts, List.foldl_append, Argon2Memory]
  · intro opts n m; simp [applyOpts, List.foldl_append, Argon2Parallelism]
  · intro opts n m; simp [applyOpts, List.foldl_append, Argon2HashLength]
  · intro opts n m; simp [applyOpts, List.foldl_append, Argon2SaltLength]
  · intro opts n m; simp [applyOpts, List.foldl_append, Argon2Mode]
  · intro opts n m; simp [applyOpts, List.foldl_append, Argon2Version]

/-- A concrete primitive whose verify/hash calls all report status `s`;
used only to instantiate the quantified theorems at concrete inputs. -/
def primConst (s : Int) : Argon2Primitive :=
  { encodedlen := fun _ _ _ _ _ _ => 8
    hashFn := fun _ _ _ _ _ _ _ _ _ => (s, [97, 98, 0, 0])
    verifyFn := fun _ _ _ => s
    errorMessage := fun _ => "status" }

/-- Claim C6: `Verify` checks its preconditions in the order absent
configuration → `NotConfigured`, empty secret → `EmptyInput`, empty hash →
`EmptyHash`, unparseable variant → `InvalidVariant`; in particular an
unconfigured hasher yields `NotConfigured` whatever the secret, and a
configured hasher with empty secret yields `EmptyInput` whatever the
hash. -/
theorem c6_verify_precondition_order (prim : Argon2Primitive)
    (c : Argon2Config) (raw hash : List Nat) :
    (Verify prim { conf := none } raw hash = (false, some .errNotConfigured)) ∧
    (raw = [] →
      Verify prim { conf := some c } raw hash = (false, some .errEmptyInput)) ∧
    (raw ≠ [] → hash = [] →
      Verify prim { conf := some c } raw hash = (false, some .errEmptyHash)) ∧
    (raw ≠ [] → hash ≠ [] →
      (getArgon2Mode hash).2 = some .errInvalidArgon2Mode →
      Verify prim { conf := some c } raw hash =
        (false, some .errInvalidArgon2Mode)) := by
  refine ⟨rfl, ?_, ?_, ?_⟩
  · intro hr; simp [Verify, hr]
  · intro hr hh; simp [Verify, hr, hh]
  · intro hr hh hm
    rcases hmode : getArgon2Mode hash with ⟨m, e⟩
    rw [hmode] at hm
    simp only at hm
    subst hm
    simp [Verify, hr, hh, hmode]

/-- Claim C6 witness: a configured hasher, non-empty secret, empty hash
yields `EmptyHash`. -/
theorem c6_verify_precondition_order_witness :
    ([1] : List Nat) ≠ [] ∧
    Verify (primConst 0) { conf := some defaultArgon2Config } [1] [] =
      (false, some .errEmptyHash) :=
  ⟨by decide,
   (c6_verify_precondition_order (primConst 0) defaultArgon2Config [1]
     []).2.2.1 (by decide) rfl⟩

/-- Claim C2: on a configured hasher with non-empty secret and hash and a
recognized variant, `Verify` returns `(true, nil)` exactly when the
primitive reports `ARGON2_OK`, `(false, nil)` exactly when it reports
`ARGON2_VERIFY_MISMATCH`, and `(false, e)` with the translated primitive
message for every other status; a mismatch is never reported as an
error. -/
theorem c2_verify_status_mapping (prim : Argon2Primitive) (c : Argon2Config)
    (raw hash : List Nat) (mode : Int)
    (hr : raw ≠ []) (hh : hash ≠ []) (hm : getArgon2Mode hash = (mode, none)) :
    (Verify prim { conf := some c } raw hash = (true, none) ↔
      prim.verifyFn hash raw mode = ARGON2_OK) ∧
    (Verify prim { conf := some c } raw hash = (false, none) ↔
      prim.verifyFn hash raw mode = ARGON2_VERIFY_MISMATCH) ∧
    (prim.verifyFn hash raw mode ≠ ARGON2_OK →
      prim.verifyFn hash raw mode ≠ ARGON2_VERIFY_MISMATCH →
      Verify prim { conf := some c } raw hash =
        (false, some (.errNew (prim.errorMessage
          (prim.verifyFn hash raw mode))))) := by
  have hv : Verify prim { conf := some c } raw hash =
      (if prim.verifyFn hash raw mode = ARGON2_OK then ((true : Bool), (none : Option GoError))
       else if prim.verifyFn hash raw mode = ARGON2_VERIFY_MISMATCH then (false, none)
       else (false, some (.errNew (prim.errorMessage
         (prim.verifyFn hash raw mode))))) := by
    simp [Verify, hr, hh, hm]
  by_cases h0 : prim.verifyFn hash raw mode = ARGON2_OK
  · rw [hv, if_pos h0]
    refine ⟨by simp [h0], ?_, ?_⟩
    · simp [h0, ARGON2_OK, ARGON2_VERIFY_MISMATCH]
    · intro hcontra _; exact absurd h0 hcontra
  · by_cases h35 : prim.verifyFn hash raw mode = ARGON2_VERIFY_MISMATCH
    · rw [hv, if_neg h0, if_pos h35]
      refine ⟨by simp [h35, ARGON2_OK, ARGON2_VERIFY_MISMATCH], by simp [h35], ?_⟩
      · intro _ hcontra; exact absurd h35 hcontra
    · rw [hv, if_neg h0, if_neg h35]
      exact ⟨by simp [h0], by simp [h35], fun _ _ => rfl⟩

/-- Claim C2 witness: with a primitive reporting `ARGON2_OK`, `Verify` on
`"$argon2id"` returns `(true, nil)`. -/
theorem c2_verify_status_mapping_witness :
    Verify (primConst 0) { conf := some defaultArgon2Config } [1] tagArgon2id =
      (true, none) :=
  (c2_verify_status_mapping (primConst 0) defaultArgon2Config [1] tagArgon2id
    Argon2ModeID (by decide) (by decide) (by decide)).1.mpr (by decide)

/-- Claim C1: `Verify` drives the primitive with the variant parsed from
the encoded hash's prefix, not the configured one, so two hashers whose
configurations differ only in the `Mode` field verify identically. -/
theorem c1_variant_authoritative (prim : Argon2Primitive) (c : Argon2Config)
    (m : Int) (raw hash : List Nat) (mode : Int)
    (hr : raw ≠ []) (hh : hash ≠ []) (hm : getArgon2Mode hash = (mode, none)) :
    (Verify prim { conf := some c } raw hash =
      (if prim.verifyFn hash raw mode = ARGON2_OK then ((true : Bool), (none : Option GoError))
       else if prim.verifyFn hash raw mode = ARGON2_VERIFY_MISMATCH then (false, none)
       else (false, some (.errNew (prim.errorMessage
         (prim.verifyFn hash raw mode)))))) ∧
    Verify prim { conf := some c } raw hash =
      Verify prim { conf := some { c with Mode := m } } raw hash := by
  constructor
  · simp [Verify, hr, hh, hm]
  · rfl

/-- Claim C1 witness: a hasher configured for mode ID and one differing
only by mode I verify the same `"$argon2id"` hash identically. -/
theorem c1_variant_authoritative_witness :
    getArgon2Mode tagArgon2id = (Argon2ModeID, none) ∧
    Verify (primConst 0) { conf := some defaultArgon2Config } [1] tagArgon2id =
      Verify (primConst 0)
        { conf := some { defaultArgon2Config with Mode := Argon2ModeI } }
        [1] tagArgon2id :=
  ⟨by decide,
   (c1_variant_authoritative (primConst 0) defaultArgon2Config Argon2ModeI
     [1] tagArgon2id Argon2ModeID (by decide) (by decide) (by decide)).2⟩

/-- Inversion on `Verify` returning the `NotConfigured` error: only an
absent configuration produces it. -/
theorem Verify_notConfigured_inv (prim : Argon2Primitive) (h : argon2Hasher)
    (raw hash : List Nat)
    (heq : Verify prim h raw hash = (false, some GoError.errNotConfigured)) :
    h.conf = none := by
  rcases h with ⟨_ | c⟩
  · rfl
  · exfalso
    by_cases hr : raw = []
    · simp [Verify, hr] at heq
    · by_cases hh : hash = []
      · simp [Verify, hr, hh] at heq
      · rcases hmode : getArgon2Mode hash with ⟨m, e⟩
        cases e with
        | some e' =>
          have he := (getArgon2Mode_err hmode).1
          subst he
          simp [Verify, hr, hh, hmode] at heq
        | none =>
          by_cases h0 : prim.verifyFn hash raw m = ARGON2_OK
          · simp [Verify, hr, hh, hmode, h0] at heq
          · by_cases h35 : prim.verifyFn hash raw m = ARGON2_VERIFY_MISMATCH
            · simp [Verify, hr, hh, hmode, h0, h35, ARGON2_OK,
                ARGON2_VERIFY_MISMATCH] at heq
            · simp [Verify, hr, hh, hmode, h0, h35] at heq

/-- Inversion on a normal return of `Encode`: the returned slice is `nil`
alongside a non-nil error, or a trimmed buffer alongside a nil error. -/
theorem Encode_ret_shape (prim : Argon2Primitive)
    (randRead : Nat → Except GoError (List Nat)) (h : argon2Hasher)
    (raw : List Nat) (r : Option (List Nat)) (e : Option GoError)
    (heq : Encode prim randRead h raw = .ret r e) :
    (r = none ∧ e ≠ none) ∨ (e = none ∧ ∃ buf, r = some (trimRightNul buf)) := by
  rcases h with ⟨_ | c⟩
  · have hE : Encode prim randRead ⟨none⟩ raw =
        .ret none (some .errNotConfigured) := rfl
    rw [hE] at heq
    injection heq with ha hb
    exact Or.inl ⟨ha.symm, by rw [← hb]; simp⟩
  · by_cases h1 : raw = []
    · have hE : Encode prim randRead ⟨some c⟩ raw =
          .ret none (some .errEmptyInput) := by simp [Encode, h1]
      rw [hE] at heq
      injection heq with ha hb
      exact Or.inl ⟨ha.symm, by rw [← hb]; simp⟩
    · by_cases h2 : c.SaltLength = 0
      · have hE : Encode prim randRead ⟨some c⟩ raw =
            .ret none (some .errNotConfigured) := by simp [Encode, h1, h2]
        rw [hE] at heq
        injection heq with ha hb
        exact Or.inl ⟨ha.symm, by rw [← hb]; simp⟩
      · by_cases h3 : c.SaltLength < 0
        · have hE : Encode prim randRead ⟨some c⟩ raw = .goPanic := by
            simp [Encode, h1, h2, h3]
          rw [hE] at heq
          exact EncodeOutcome.noConfusion heq
        · rcases hrand : randRead c.SaltLength.toNat with e' | salt
          · have hE : Encode prim randRead ⟨some c⟩ raw = .ret none (some e') := by
              simp [Encode, h1, h2, h3, hrand]
            rw [hE] at heq
            injection heq with ha hb
            exact Or.inl ⟨ha.symm, by rw [← hb]; simp⟩
          · by_cases h4 : prim.encodedlen c.Iterations c.Memory c.Parallelism
                c.SaltLength c.HashLength c.Mode = 0
            · have hE : Encode prim randRead ⟨some c⟩ raw = .goPanic := by
                simp [Encode, h1, h2, h3, hrand, h4]
              rw [hE] at heq
              exact EncodeOutcome.noConfusion heq
            · rcases hdr : prim.hashFn c.Iterations c.Memory c.Parallelism raw
                  salt c.HashLength
                  (prim.encodedlen c.Iterations c.Memory c.Parallelism
                    c.SaltLength c.HashLength c.Mode) c.Mode c.Version
                with ⟨st, buf⟩
              by_cases h5 : st = ARGON2_OK
              · have hE : Encode prim randRead ⟨some c⟩ raw =
                    .ret (some (trimRightNul buf)) none := by
                  simp [Encode, h1, h2, h3, hrand, h4, hdr, h5]
                rw [hE] at heq
                injection heq with ha hb
                exact Or.inr ⟨hb.symm, buf, ha.symm⟩
              · have hE : Encode prim randRead ⟨some c⟩ raw =
                    .ret none (some (.errNew (prim.errorMessage st))) := by
                  simp [Encode, h1, h2, h3, hrand, h4, hdr, h5]
                rw [hE] at heq
                injection heq with ha hb
                exact Or.inl ⟨ha.symm, by rw [← hb]; simp⟩

/-- A random source that always succeeds, filling the buffer with byte 7;
used only to instantiate the quantified theorems at concrete inputs. -/
def randOk : Nat → Except GoError (List Nat) :=
  fun n => .ok (List.replicate n 7)

/-- A random source that always fails with a fixed external error; used
only to instantiate the quantified theorems at concrete inputs. -/
def randFailBoom : Nat → Except GoError (List Nat) :=
  fun _ => .error (.errNew "boom")

/-- Claim C7: every normal return of `Encode` is either a non-nil hash not
ending in a NUL byte together with a nil error, or a nil hash together
with a non-nil error; never a hash alongside an error. -/
theorem c7_encode_normalized_or_error (prim : Argon2Primitive)
    (randRead : Nat → Except GoError (List Nat)) (h : argon2Hasher)
    (raw : List Nat) (r : Option (List Nat)) (e : Option GoError)
    (heq : Encode prim randRead h raw = .ret r e) :
    (r = none ∧ e ≠ none) ∨
    (e = none ∧ ∃ hs, r = some hs ∧ hs.getLast? ≠ some 0) := by
  rcases Encode_ret_shape prim randRead h raw r e heq with ⟨h1, h2⟩ | ⟨h1, buf, h2⟩
  · exact Or.inl ⟨h1, h2⟩
  · exact Or.inr ⟨h1, trimRightNul buf, h2, trimRightNul_getLast? buf⟩

/-- Claim C7 witness: a concrete successful call whose primitive buffer
ends in NUL padding returns the trimmed hash `[97, 98]` and no error. -/
theorem c7_encode_normalized_or_error_witness :
    Encode (primConst 0) randOk { conf := some defaultArgon2Config } [1] =
      .ret (some [97, 98]) none ∧
    (((some [97, 98] : Option (List Nat)) = none ∧
        (none : Option GoError) ≠ none) ∨
     ((none : Option GoError) = none ∧
        ∃ hs, (some [97, 98] : Option (List Nat)) = some hs ∧
          hs.getLast? ≠ some 0)) :=
  ⟨by decide,
   c7_encode_normalized_or_error (primConst 0) randOk
     { conf := some defaultArgon2Config } [1] (some [97, 98]) none (by decide)⟩

/-- Claim C8: if the random source fails while generating the salt,
`Encode` returns a nil hash and that source's error value verbatim. -/
theorem c8_encode_rand_error_verbatim (prim : Argon2Primitive)
    (randRead : Nat → Except GoError (List Nat)) (c : Argon2Config)
    (raw : List Nat) (e : GoError)
    (hraw : raw ≠ []) (hpos : 0 < c.SaltLength)
    (hfail : randRead c.SaltLength.toNat = .error e) :
    Encode prim randRead { conf := some c } raw = .ret none (some e) := by
  have h2 : ¬ c.SaltLength = 0 := by omega
  have h3 : ¬ c.SaltLength < 0 := by omega
  simp [Encode, hraw, h2, h3, hfail]

/-- Claim C8 witness: a failing source's error `errNew "boom"` comes back
unchanged from a concrete `Encode` call. -/
theorem c8_encode_rand_error_verbatim_witness :
    (0 : Int) < defaultArgon2Config.SaltLength ∧
    Encode (primConst 0) randFailBoom { conf := some defaultArgon2Config }
      [1] = .ret none (some (.errNew "boom")) :=
  ⟨by decide,
   c8_encode_rand_error_verbatim (primConst 0) randFailBoom
     defaultArgon2Config [1] (.errNew "boom") (by decide) (by decide) rfl⟩

/-- Claim C4 counterexample: with a negative salt length (`-1`) and a
non-empty secret, `Encode` does not return `NotConfigured` — it panics at
`make([]byte, c.SaltLength)`, so the claim's "zero or negative" case is
wrong for negative values. -/
theorem c4_counterexample :
    Encode (primConst 0) randOk
      { conf := some { defaultArgon2Config with SaltLength := -1 } } [1] =
      .goPanic ∧
    Encode (primConst 0) randOk
      { conf := some { defaultArgon2Config with SaltLength := -1 } } [1] ≠
      .ret none (some .errNotConfigured) :=
  ⟨by decide, by decide⟩

/-- Claim C4 (amended): with a configuration present, a non-empty secret
and a salt length of exactly zero, `Encode` returns the `NotConfigured`
error and a nil hash without invoking the random source or the primitive
(the result is independent of both); a negative salt length instead
causes a runtime panic when allocating the salt buffer. -/
theorem c4_amended_salt_guard (prim prim' : Argon2Primitive)
    (randRead randRead' : Nat → Except GoError (List Nat))
    (c : Argon2Config) (raw : List Nat) (hraw : raw ≠ []) :
    (c.SaltLength = 0 →
      Encode prim randRead { conf := some c } raw =
        .ret none (some .errNotConfigured) ∧
      Encode prim randRead { conf := some c } raw =
        Encode prim' randRead' { conf := some c } raw) ∧
    (c.SaltLength < 0 →
      Encode prim randRead { conf := some c } raw = .goPanic) := by
  constructor
  · intro h2
    have hE : ∀ (p : Argon2Primitive) (rr : Nat → Except GoError (List Nat)),
        Encode p rr { conf := some c } raw =
          .ret none (some .errNotConfigured) := by
      intro p rr; simp [Encode, hraw, h2]
    exact ⟨hE prim randRead, by rw [hE prim randRead, hE prim' randRead']⟩
  · intro h3
    have h2 : ¬ c.SaltLength = 0 := by omega
    simp [Encode, hraw, h2, h3]

/-- Claim C4 (amended) witness: the zero-salt-length case at a concrete
configuration, secret, primitive and random source. -/
theorem c4_amended_salt_guard_witness :
    ({ defaultArgon2Config with SaltLength := 0 } : Argon2Config).SaltLength
      = 0 ∧
    Encode (primConst 0) randOk
      { conf := some { defaultArgon2Config with SaltLength := 0 } } [1] =
      .ret none (some .errNotConfigured) :=
  ⟨rfl,
   ((c4_amended_salt_guard (primConst 0) (primConst 1) randOk randFailBoom
     { defaultArgon2Config with SaltLength := 0 } [1] (by decide)).1 rfl).1⟩

/-- Inversion on `Encode` returning the `NotConfigured` error: either the
configuration is absent, or the salt length is zero, or the random source
itself produced that exact error value. -/
theorem Encode_notConfigured_cases (prim : Argon2Primitive)
    (randRead : Nat → Except GoError (List Nat)) (h : argon2Hasher)
    (raw : List Nat) (r : Option (List Nat))
    (heq : Encode prim randRead h raw = .ret r (some GoError.errNotConfigured)) :
    h.conf = none ∨ (∃ c, h.conf = some c ∧ c.SaltLength = 0) ∨
    (∃ n, randRead n = .error GoError.errNotConfigured) := by
  rcases h with ⟨_ | c⟩
  · exact Or.inl rfl
  · by_cases h1 : raw = []
    · have hE : Encode prim randRead ⟨some c⟩ raw =
          .ret none (some .errEmptyInput) := by simp [Encode, h1]
      rw [hE] at heq
      injection heq with ha hb
      injection hb with hc
      exact GoError.noConfusion hc
    · by_cases h2 : c.SaltLength = 0
      · exact Or.inr (Or.inl ⟨c, rfl, h2⟩)
      · by_cases h3 : c.SaltLength < 0
        · have hE : Encode prim randRead ⟨some c⟩ raw = .goPanic := by
            simp [Encode, h1, h2, h3]
          rw [hE] at heq
          exact EncodeOutcome.noConfusion heq
        · rcases hrand : randRead c.SaltLength.toNat with e' | salt
          · have hE : Encode prim randRead ⟨some c⟩ raw =
                .ret none (some e') := by simp [Encode, h1, h2, h3, hrand]
            rw [hE] at heq
            injection heq with ha hb
            injection hb with hc
            exact Or.inr (Or.inr ⟨c.SaltLength.toNat, by rw [hrand, hc]⟩)
          · by_cases h4 : prim.encodedlen c.Iterations c.Memory c.Parallelism
                c.SaltLength c.HashLength c.Mode = 0
            · have hE : Encode prim randRead ⟨some c⟩ raw = .goPanic := by
                simp [Encode, h1, h2, h3, hrand, h4]
              rw [hE] at heq
              exact EncodeOutcome.noConfusion heq
            · rcases hdr : prim.hashFn c.Iterations c.Memory c.Parallelism raw
                  salt c.HashLength
                  (prim.encodedlen c.Iterations c.Memory c.Parallelism
                    c.SaltLength c.HashLength c.Mode) c.Mode c.Version
                with ⟨st, buf⟩
              by_cases h5 : st = ARGON2_OK
              · have hE : Encode prim randRead ⟨some c⟩ raw =
                    .ret (some (trimRightNul buf)) none := by
                  simp [Encode, h1, h2, h3, hrand, h4, hdr, h5]
                rw [hE] at heq
                injection heq with ha hb
                exact Option.noConfusion hb
              · have hE : Encode prim randRead ⟨some c⟩ raw =
                    .ret none (some (.errNew (prim.errorMessage st))) := by
                  simp [Encode, h1, h2, h3, hrand, h4, hdr, h5]
                rw [hE] at heq
                injection heq with ha hb
                injection hb with hc
                exact GoError.noConfusion hc

/-- Claim C10: every hasher built by `CreateArgon2` carries a non-nil
configuration; `Verify` on such a hasher can never return the
`NotConfigured` error, and `Encode` can return it only when the bound
salt length is zero (given a random source that does not itself yield
the package's `NotConfigured` sentinel). -/
theorem c10_created_hasher_configured (opts : List Argon2Option) :
    (CreateArgon2 opts).conf ≠ none ∧
    (∀ (prim : Argon2Primitive) (raw hash : List Nat),
      Verify prim (CreateArgon2 opts) raw hash ≠
        (false, some .errNotConfigured)) ∧
    (∀ (prim : Argon2Primitive) (randRead : Nat → Except GoError (List Nat))
      (raw : List Nat) (r : Option (List Nat)),
      (∀ n e, randRead n = .error e → e ≠ GoError.errNotConfigured) →
      Encode prim randRead (CreateArgon2 opts) raw =
        .ret r (some .errNotConfigured) →
      (applyOpts opts).SaltLength = 0) := by
  refine ⟨by simp [CreateArgon2], ?_, ?_⟩
  · intro prim raw hash hcontra
    have hnone := Verify_notConfigured_inv prim (CreateArgon2 opts) raw hash
      hcontra
    simp [CreateArgon2] at hnone
  · intro prim randRead raw r hrand heq
    rcases Encode_notConfigured_cases prim randRead (CreateArgon2 opts) raw r
        heq with h1 | ⟨c, hc, hs⟩ | ⟨n, hn⟩
    · simp [CreateArgon2] at h1
    · have hce : applyOpts opts = c := by
        simpa [CreateArgon2] using hc
      rw [hce]; exact hs
    · exact absurd rfl (hrand n _ hn)

/-- Claim C10 witness: the hasher built with a zero-salt-length option is
configured, and the `Encode` branch of the claim concludes a zero salt
length for it. -/
theorem c10_created_hasher_configured_witness :
    (CreateArgon2 [Argon2SaltLength 0]).conf ≠ none ∧
    (applyOpts [Argon2SaltLength 0]).SaltLength = 0 :=
  ⟨(c10_created_hasher_configured [Argon2SaltLength 0]).1,
   (c10_created_hasher_configured [Argon2SaltLength 0]).2.2 (primConst 0)
     randOk [1] none (by intro n e hcontra; simp [randOk] at hcontra)
     (by decide)⟩
